import Mathlib

/-!
Shallow embedding of the statistics/aggregation routes of the
erp_operationnel repository (file app/statsimpact/routes.py), together
with theorems settling the frozen claims about it.

Conventions of the embedding:
  - the relational store is a snapshot value of type DB (lists of rows);
  - SQL NULL is Option.none; SQL equality against NULL is always false
    (sqlEqInt); SQL MIN ignores NULL operands (rows whose date expression
    is none are dropped before taking the minimum);
  - Python str.strip is pyStrip; Python truthiness of an optional string
    (None and "" falsy) is optStrTruthy, of an optional int (None and 0
    falsy) is intTruthy;
  - ORDER BY clauses are modelled with an insertion sort over a boolean
    comparator (a deterministic total order; NULLs sort first);
  - float ratios of the source are modelled as rationals.
-/

namespace ERP

/-- Calendar date (year, month, day). Python date objects compare
lexicographically on these components. -/
structure Date where
  year : Int
  month : Int
  day : Int
deriving DecidableEq, Repr

/-- Boolean date comparison, lexicographic on (year, month, day). -/
def Date.leb (a b : Date) : Bool :=
  if a.year = b.year then
    (if a.month = b.month then decide (a.day ≤ b.day) else decide (a.month < b.month))
  else decide (a.year < b.year)

/-- SQL MIN over a list of dates (the none rows are dropped by callers). -/
def minDate (l : List Date) : Option Date :=
  l.foldl
    (fun acc d =>
      match acc with
      | none => some d
      | some m => if Date.leb d m then some d else some m)
    none

/-- Python str.strip(): drop whitespace from both ends. -/
def pyStrip (s : String) : String :=
  String.mk (((s.data.dropWhile Char.isWhitespace).reverse.dropWhile Char.isWhitespace).reverse)

/-- Boolean lexicographic comparison of character lists. -/
def leCharList : List Char → List Char → Bool
  | [], _ => true
  | _ :: _, [] => false
  | a :: as, b :: bs => if a = b then leCharList as bs else decide (a < b)

/-- Boolean string comparison (lexicographic on the characters). -/
def leStr (a b : String) : Bool := leCharList a.data b.data

/-- Optional strings ordered with NULL first (SQL asc with NULLs first). -/
def leOptStr : Option String → Option String → Bool
  | none, _ => true
  | some _, none => false
  | some a, some b => leStr a b

/-- Optional dates ordered with NULL first. -/
def leOptDate : Option Date → Option Date → Bool
  | none, _ => true
  | some _, none => false
  | some a, some b => Date.leb a b

/-- Python truthiness of an optional string: None and "" are falsy. -/
def optStrTruthy : Option String → Bool
  | none => false
  | some s => decide (s ≠ "")

/-- Python truthiness of an optional integer: None and 0 are falsy. -/
def intTruthy : Option Int → Bool
  | none => false
  | some v => decide (v ≠ 0)

/-- SQL equality on nullable integers: any comparison with NULL is false. -/
def sqlEqInt : Option Int → Option Int → Bool
  | some x, some y => x == y
  | _, _ => false

/-- Insert an element into a list sorted by the boolean comparator. -/
def insertLe {α : Type} (le : α → α → Bool) (a : α) : List α → List α
  | [] => [a]
  | b :: l => if le a b then a :: b :: l else b :: insertLe le a l

/-- Insertion sort by a boolean comparator; models ORDER BY clauses. -/
def sortLe {α : Type} (le : α → α → Bool) : List α → List α
  | [] => []
  | a :: l => insertLe le a (sortLe le l)

/-- Row of the AtelierActivite table (workshop). -/
structure Atelier where
  id : Int
  nom : String
  secteur : Option String
  is_deleted : Bool
deriving DecidableEq, Repr

/-- Row of the SessionActivite table. The effective date of a session is
rdv_date if present else date_session. -/
structure Session where
  id : Int
  atelier_id : Int
  rdv_date : Option Date
  date_session : Option Date
  secteur : Option String
deriving DecidableEq, Repr

/-- Row of the PresenceActivite table (participant_id is nullable). -/
structure Presence where
  id : Int
  participant_id : Option Int
  session_id : Int
deriving DecidableEq, Repr

/-- Row of the Participant table (only the fields the claims need). -/
structure Participant where
  id : Int
  nom : Option String
  prenom : Option String
deriving DecidableEq, Repr

/-- Row of the Competence table (only the id is used by the roll-up). -/
structure Competence where
  id : Int
deriving DecidableEq, Repr

/-- Row of the Evaluation table (etat ≥ 2 means validated). -/
structure Evaluation where
  session_id : Option Int
  participant_id : Option Int
  competence_id : Int
  etat : Int
deriving DecidableEq, Repr

/-- Snapshot of the relational store read by the routes. -/
structure DB where
  ateliers : List Atelier
  sessions : List Session
  presences : List Presence
  participants : List Participant
  evaluations : List Evaluation
deriving Repr

/-- The normalized filter fields used by the per-atelier export and the
dashboard default-date logic. -/
structure Filter where
  date_from : Option Date
  date_to : Option Date
  secteur : Option String
deriving DecidableEq, Repr

/-- The caller: permission predicate results and the assigned sector. -/
structure Caller where
  can_all_secteurs : Bool
  can_participants_view_all : Bool
  secteur_assigne : Option String
deriving Repr

/-- coalesce(rdv_date, date_session): the effective date of a session. -/
def effDate (s : Session) : Option Date :=
  match s.rdv_date with
  | some d => some d
  | none => s.date_session

/-- ORDER BY AtelierActivite.secteur asc, nom asc. -/
def atelierLe (a b : Atelier) : Bool :=
  if a.secteur = b.secteur then leStr a.nom b.nom else leOptStr a.secteur b.secteur

/-- ORDER BY coalesce(rdv_date, date_session) asc, SessionActivite.id asc. -/
def sessionLe (a b : Session) : Bool :=
  if effDate a = effDate b then decide (a.id ≤ b.id) else leOptDate (effDate a) (effDate b)

/-- ORDER BY Participant.nom asc, prenom asc. -/
def participantLe (a b : Participant) : Bool :=
  if a.nom = b.nom then leOptStr a.prenom b.prenom else leOptStr a.nom b.nom

/-- Lines 381-384 of routes.py: the effective sector of the per-atelier
export. Without scope:all_secteurs the stripped assigned sector, when
non-empty, overrides the requested filter sector. -/
def effSecteurExport (flt : Filter) (u : Caller) : Option String :=
  if u.can_all_secteurs then flt.secteur
  else
    let t := pyStrip (u.secteur_assigne.getD "")
    if t = "" then flt.secteur else some t

/-- Line 586 of routes.py: user_secteur, the stripped assigned sector. -/
def userSecteur (u : Caller) : String := pyStrip (u.secteur_assigne.getD "")

/-- Lines 387-390 of routes.py: the non-deleted ateliers, restricted to the
effective sector when that is truthy, ordered by (secteur, nom). -/
def ateliersInScope (db : DB) (eff : Option String) : List Atelier :=
  let base := db.ateliers.filter (fun a => !a.is_deleted)
  let restricted := if optStrTruthy eff then base.filter (fun a => a.secteur == eff) else base
  sortLe atelierLe restricted

/-- Lines 400-411 of routes.py: the sessions of one atelier whose effective
date lies in the inclusive filter range (an absent bound is unconstrained;
a NULL effective date fails either bound), ordered by (date, id). -/
def sessionsInPeriod (db : DB) (flt : Filter) (atelier_id : Int) : List Session :=
  let q0 := db.sessions.filter (fun s => s.atelier_id == atelier_id)
  let q1 :=
    match flt.date_from with
    | some d => q0.filter (fun s => match effDate s with | some e => Date.leb d e | none => false)
    | none => q0
  let q2 :=
    match flt.date_to with
    | some d => q1.filter (fun s => match effDate s with | some e => Date.leb e d | none => false)
    | none => q1
  sortLe sessionLe q2

/-- Lines 420-424 of routes.py: the (participant_id, session_id) pairs of
the presences attached to the given sessions. -/
def presRows (db : DB) (sids : List Int) : List (Option Int × Int) :=
  (db.presences.filter (fun p => sids.contains p.session_id)).map
    (fun p => (p.participant_id, p.session_id))

/-- Line 433 of routes.py: sorted distinct non-null participant ids. -/
def pidSet (rows : List (Option Int × Int)) : List Int :=
  sortLe (fun a b => decide (a ≤ b)) ((rows.filterMap (fun r => r.1)).dedup)

/-- The join of PresenceActivite with SessionActivite on session_id,
restricted to the given session ids (lines 444-455 of routes.py). -/
def presJoin (db : DB) (sids : List Int) : List (Presence × Session) :=
  (db.presences.flatMap
      (fun p => (db.sessions.filter (fun s => s.id == p.session_id)).map (fun s => (p, s)))).filter
    (fun r => sids.contains r.1.session_id)

/-- The GROUP BY row of lines 444-456: count(Presence.id) for one
participant over the joined, period-restricted presences. -/
def countNb (db : DB) (sids : List Int) (pid : Int) : Nat :=
  ((presJoin db sids).filter (fun r => r.1.participant_id == some pid)).length

/-- The GROUP BY row of lines 444-456: min(coalesce(rdv_date, date_session))
for one participant over the joined, period-restricted presences. -/
def minFirst (db : DB) (sids : List Int) (pid : Int) : Option Date :=
  minDate
    (((presJoin db sids).filter (fun r => r.1.participant_id == some pid)).filterMap
      (fun r => effDate r.2))

/-- The recurring test of line 461 of routes.py: at least 2 presences among
the period-restricted sessions of the atelier. -/
def recPred (db : DB) (sids : List Int) (pid : Int) : Bool :=
  decide (2 ≤ countNb db sids pid)

/-- The new-participant test of lines 463-464 of routes.py: the earliest
effective date among the period-restricted presences exists, both filter
bounds are set, and that date lies in the range. -/
def newPred (db : DB) (flt : Filter) (sids : List Int) (pid : Int) : Bool :=
  match minFirst db sids pid, flt.date_from, flt.date_to with
  | some fd, some df, some dt => Date.leb df fd && Date.leb fd dt
  | _, _, _ => false

/-- Lines 457-465 of routes.py: the loop accumulating the nouveaux and the
recurrents counters over the participant ids. -/
def newRecurringLoop (db : DB) (flt : Filter) (sids : List Int) :
    List Int → Nat × Nat → Nat × Nat
  | [], acc => acc
  | pid :: rest, acc =>
    let rcount := if recPred db sids pid then acc.2 + 1 else acc.2
    let ncount := if newPred db flt sids pid then acc.1 + 1 else acc.1
    newRecurringLoop db flt sids rest (ncount, rcount)

/-- The (nouveaux, recurrents) pair produced by the loop of lines 457-465. -/
def newRecurring (db : DB) (flt : Filter) (sids : List Int) (pids : List Int) : Nat × Nat :=
  newRecurringLoop db flt sids pids (0, 0)

/-- One row appended to the Synthese sheet (header of line 397). -/
structure SummaryRow where
  secteur : Option String
  atelier_nom : String
  nb_sessions : Nat
  nb_presences : Nat
  nb_participants_uniques : Nat
  nouveaux : Nat
  recurrents : Nat
deriving DecidableEq, Repr

/-- The Synthese row computed for one atelier by the loop body of lines
399-467 of routes.py. -/
def summaryRowFor (db : DB) (flt : Filter) (atl : Atelier) : SummaryRow :=
  let sessions := sessionsInPeriod db flt atl.id
  if sessions = [] then ⟨atl.secteur, atl.nom, 0, 0, 0, 0, 0⟩
  else
    let sids := sessions.map (fun s => s.id)
    let rows := presRows db sids
    if rows = [] then ⟨atl.secteur, atl.nom, sessions.length, 0, 0, 0, 0⟩
    else
      let pids := pidSet rows
      let nr := newRecurring db flt sids pids
      ⟨atl.secteur, atl.nom, sessions.length, rows.length, pids.length, nr.1, nr.2⟩

/-- The full Synthese sheet of the per-atelier workbook: one row per
atelier in scope, in atelier order. -/
def buildSummary (db : DB) (flt : Filter) (u : Caller) : List SummaryRow :=
  (ateliersInScope db (effSecteurExport flt u)).map (summaryRowFor db flt)

/-- Line 480 of routes.py: the present set, the (pid, sid) pairs of the
presence rows whose participant id is non-null. -/
def presentSet (rows : List (Option Int × Int)) : List (Int × Int) :=
  rows.filterMap (fun r => match r.1 with | some pid => some (pid, r.2) | none => none)

/-- Lines 469-487 of routes.py: the attendance matrix sheet of one atelier.
Each row is (participant id, one cell per in-period session in session
order); a cell is "1" exactly when the (pid, sid) pair is in the present
set built from the presence rows. -/
def matrixRows (db : DB) (flt : Filter) (atelier_id : Int) : List (Int × List String) :=
  let sessions := sessionsInPeriod db flt atelier_id
  let sids := sessions.map (fun s => s.id)
  let rows := presRows db sids
  let pids := pidSet rows
  let parts := sortLe participantLe (db.participants.filter (fun p => pids.contains p.id))
  parts.map
    (fun p =>
      (p.id, sessions.map (fun s => if (presentSet rows).contains (p.id, s.id) then "1" else "")))

/-- The participant ids that get a row in the matrix sheet of one atelier. -/
def matrixPids (db : DB) (flt : Filter) (atelier_id : Int) : List Int :=
  pidSet (presRows db ((sessionsInPeriod db flt atelier_id).map (fun s => s.id)))

/-- The cell of the matrix sheet at (participant pid, session sid): the row
whose participant id is pid, paired positionally with the session columns,
at the column whose session id is sid. none when no such row or column. -/
def cellOf (db : DB) (flt : Filter) (atelier_id : Int) (pid sid : Int) : Option String :=
  match (matrixRows db flt atelier_id).find? (fun r => r.1 == pid) with
  | none => none
  | some r =>
    match ((sessionsInPeriod db flt atelier_id).zip r.2).find? (fun z => z.1.id == sid) with
    | none => none
    | some z => some z.2

/-- Lines 588-595 of routes.py: the distinct session sectors of the
presences of one participant, with NULL and empty sectors dropped. -/
def presenceSectors (db : DB) (pid : Int) : List String :=
  let joined := db.presences.flatMap
    (fun p => (db.sessions.filter (fun s => s.id == p.session_id)).map (fun s => (p, s)))
  let vals := (joined.filter (fun r => r.1.participant_id == some pid)).map (fun r => r.2.secteur)
  (vals.dedup.filterMap id).filter (fun s => decide (s ≠ ""))

/-- The sector set compared against the singleton of the caller sector. -/
def deleteSectors (db : DB) (pid : Int) : Finset String :=
  (presenceSectors db pid).toFinset

/-- Outcome of the delete-participant action: the resulting store, whether
the deletion went through, and whether a refusal was flashed. -/
structure DeleteResult where
  db : DB
  deleted : Bool
  refusal_reported : Bool

/-- Lines 610-621 of routes.py: remove the presences of the participant,
then the participant row itself. -/
def doDeleteParticipant (db : DB) (pid : Int) : DB :=
  { db with
    presences := db.presences.filter (fun p => !(p.participant_id == some pid)),
    participants := db.participants.filter (fun q => !(q.id == pid)) }

/-- Lines 584-625 of routes.py, from the sector guard on: a caller without
participants:view_all is refused (flash, no mutation) when the participant
has presences in a sector set other than the empty set or the singleton of
the caller sector; otherwise the participant and their presences are
deleted. -/
def delete_participant_action (db : DB) (u : Caller) (pid : Int) : DeleteResult :=
  if u.can_participants_view_all then ⟨doDeleteParticipant db pid, true, false⟩
  else
    if deleteSectors db pid ≠ ∅ ∧ deleteSectors db pid ≠ {userSecteur u} then ⟨db, false, true⟩
    else ⟨doDeleteParticipant db pid, true, false⟩

/-- Result of the participant success rate helper (line 221). -/
structure PRStats where
  total : Nat
  success : Nat
  ratio : ℚ
deriving DecidableEq, Repr

/-- Lines 231-240 of routes.py: the evaluation rows matching one presence,
restricted to the target session, the participant of the presence, the
competence ids of the objective, and etat ≥ 2. -/
def evalMatches (db : DB) (session_id : Int) (participant_id : Option Int)
    (comp_ids : List Int) : List Evaluation :=
  db.evaluations.filter
    (fun e =>
      sqlEqInt e.session_id (some session_id) && sqlEqInt e.participant_id participant_id &&
        comp_ids.contains e.competence_id && decide (2 ≤ e.etat))

/-- The distinct count of the matching evaluation rows (the query ends in
distinct().count()). -/
def evalCount (db : DB) (session_id : Int) (participant_id : Option Int)
    (comp_ids : List Int) : Nat :=
  (evalMatches db session_id participant_id comp_ids).dedup.length

/-- Declarative side used by the C3 statement: the participant of the
presence has a validated (etat ≥ 2) evaluation for the given competence in
the given session. -/
def hasValidated (db : DB) (session_id : Int) (participant_id : Option Int) (cid : Int) : Bool :=
  db.evaluations.any
    (fun e =>
      sqlEqInt e.session_id (some session_id) && sqlEqInt e.participant_id participant_id &&
        e.competence_id == cid && decide (2 ≤ e.etat))

/-- Lines 221-244 of routes.py: _participants_success_rate. -/
def participants_success_rate (db : DB) (session_id : Int)
    (competences : List Competence) : PRStats :=
  if competences = [] then ⟨0, 0, 0⟩
  else
    let presences := db.presences.filter (fun p => p.session_id == session_id)
    let total := presences.length
    if total = 0 then ⟨0, 0, 0⟩
    else
      let comp_ids := competences.map (fun c => c.id)
      let success_count :=
        presences.countP (fun pr => evalCount db session_id pr.participant_id comp_ids == comp_ids.length)
      ⟨total, success_count, (success_count : ℚ) / (total : ℚ) * 100⟩

/-- Node of the objective tree: type, optional session link, competency
set, validation threshold, children. -/
inductive Objectif where
  | mk (typ : String) (session_id : Option Int) (competences : List Competence)
      (seuil_validation : Option ℚ) (enfants : List Objectif)

/-- The type field of an objective. -/
def Objectif.typ : Objectif → String
  | .mk t _ _ _ _ => t

/-- The session link of an objective. -/
def Objectif.session_id : Objectif → Option Int
  | .mk _ s _ _ _ => s

/-- The competency set of an objective. -/
def Objectif.competences : Objectif → List Competence
  | .mk _ _ c _ _ => c

/-- The validation threshold of an objective (nullable percentage). -/
def Objectif.seuil_validation : Objectif → Option ℚ
  | .mk _ _ _ v _ => v

/-- The children of an objective. -/
def Objectif.enfants : Objectif → List Objectif
  | .mk _ _ _ _ e => e

/-- Result record of the objective roll-up (line 247). -/
structure SuccessStats where
  ratio : ℚ
  validated : Bool
  total : Nat
  success : Nat
deriving DecidableEq, Repr

mutual

/-- Lines 247-261 of routes.py: _objective_success. The operational branch
is taken when the type is "operationnel" and the session link is truthy;
otherwise the children are rolled up, with the fixed all-zero,
validated-false record for an empty child list. -/
def objective_success (db : DB) : Objectif → SuccessStats
  | .mk typ sid competences seuil enfants =>
    if typ == "operationnel" && intTruthy sid then
      let stats := participants_success_rate db (sid.getD 0) competences
      ⟨stats.ratio, decide (stats.ratio ≥ seuil.getD 0), stats.total, stats.success⟩
    else
      match enfants with
      | [] => ⟨0, false, 0, 0⟩
      | e0 :: rest =>
        let results := objective_success_list db (e0 :: rest)
        let total := results.length
        let success := results.countP (fun r => r.validated)
        let ratio := (success : ℚ) / (total : ℚ) * 100
        ⟨ratio, decide (ratio ≥ seuil.getD 0), total, success⟩

/-- The recursive evaluation of a list of child objectives, in order. -/
def objective_success_list (db : DB) : List Objectif → List SuccessStats
  | [] => []
  | o :: rest => objective_success db o :: objective_success_list db rest

end

/-- Digits of a Python int literal (no sign), most significant first. -/
def digitsVal (l : List Char) : Option Nat :=
  if l.isEmpty then none
  else
    l.foldl
      (fun acc c =>
        match acc with
        | none => none
        | some n => if c.isDigit then some (n * 10 + (c.toNat - '0'.toNat)) else none)
      (some 0)

/-- Python int(string): surrounding whitespace, an optional sign, then
decimal digits; anything else raises (modelled as none). -/
def pyParseInt (s : String) : Option Int :=
  let t := ((s.data.dropWhile Char.isWhitespace).reverse.dropWhile Char.isWhitespace).reverse
  match t with
  | [] => none
  | c :: rest =>
    if c = '-' then (digitsVal rest).map (fun n => -(n : Int))
    else if c = '+' then (digitsVal rest).map (fun n => (n : Int))
    else (digitsVal t).map (fun n => (n : Int))

/-- Lines 777-784 of routes.py: int(request.args.get(...) or default) under
try/except, falling back to the default on a missing, empty or unparseable
raw value. -/
def parseCapRaw (raw : Option String) (dflt : Int) : Int :=
  match raw with
  | none => dflt
  | some s => if s = "" then dflt else (pyParseInt s).getD dflt

/-- Lines 787: max_sessions = max(5, min(max_sessions, 400)) on the export
path, after parsing with default 40. -/
def export_max_sessions (raw : Option String) : Int :=
  max 5 (min (parseCapRaw raw 40) 400)

/-- Lines 788: max_participants = max(20, min(max_participants, 5000)) on
the export path, after parsing with default 250. -/
def export_max_participants (raw : Option String) : Int :=
  max 20 (min (parseCapRaw raw 250) 5000)

/-- Lines 510-513 of routes.py: when neither normalized date bound is set,
the dashboard replaces them with January 1 and December 31 of the current
year. -/
def apply_default_dates (flt : Filter) (today : Date) : Filter :=
  if flt.date_from.isNone && flt.date_to.isNone then
    { flt with
      date_from := some ⟨today.year, 1, 1⟩
      date_to := some ⟨today.year, 12, 31⟩ }
  else flt

/-- The all-history presence count of one participant for one atelier,
written from the words of claim C5 (total presence count for that
workshop over all their history, no date restriction). -/
def spec_all_history_count (db : DB) (atelier_id pid : Int) : Nat :=
  (db.presences.filter
      (fun p =>
        p.participant_id == some pid &&
          db.sessions.any (fun s => s.id == p.session_id && s.atelier_id == atelier_id))).length

/-- The first-ever effective presence date of one participant for one
atelier, written from the words of claim C5 (computed across all their
history for that workshop). -/
def spec_first_ever (db : DB) (atelier_id pid : Int) : Option Date :=
  minDate
    ((db.presences.filter (fun p => p.participant_id == some pid)).filterMap
      (fun p =>
        match db.sessions.find? (fun s => s.id == p.session_id && s.atelier_id == atelier_id) with
        | some s => effDate s
        | none => none))

/-- The recurring predicate as claim C5 states it: all-history presence
count for the workshop at least 2. -/
def spec_recurring (db : DB) (atelier_id pid : Int) : Bool :=
  decide (2 ≤ spec_all_history_count db atelier_id pid)

/-- The new-participant predicate as claim C5 states it: the first-ever
presence date for the workshop falls inside the filtered date range. -/
def spec_new (db : DB) (flt : Filter) (atelier_id pid : Int) : Bool :=
  match spec_first_ever db atelier_id pid, flt.date_from, flt.date_to with
  | some fd, some df, some dt => Date.leb df fd && Date.leb fd dt
  | _, _, _ => false

/-- Store with one atelier, one session in 2023 and one in 2024, and a
single participant attending both sessions. -/
def dbC5 : DB :=
  { ateliers := [⟨1, "A", some "N", false⟩]
  , sessions :=
      [⟨1, 1, none, some ⟨2023, 6, 1⟩, some "N"⟩, ⟨2, 1, none, some ⟨2024, 6, 1⟩, some "N"⟩]
  , presences := [⟨1, some 7, 1⟩, ⟨2, some 7, 2⟩]
  , participants := [⟨7, some "Dupont", some "Jean"⟩]
  , evaluations := [] }

/-- Filter over the calendar year 2024, no sector requested. -/
def fltC5 : Filter := ⟨some ⟨2024, 1, 1⟩, some ⟨2024, 12, 31⟩, none⟩

/-- Caller holding every capability. -/
def uAll : Caller := ⟨true, true, none⟩

/-- Sector-restricted caller assigned to Nord, with no capability. -/
def uNord : Caller := ⟨false, false, some "Nord"⟩

/-- Empty store. -/
def dbEmpty : DB := ⟨[], [], [], [], []⟩

/-- Composite objective with no children and threshold 0. -/
def objC4 : Objectif := .mk "general" none [] (some 0) []

/-- Composite objective with one (all-zero) child and threshold 0. -/
def objC4w : Objectif := .mk "general" none [] (some 0) [objC4]

/-- Store for the operational roll-up: session 10 has two presences;
participant 7 validates both competences, participant 8 only one. -/
def dbC3 : DB :=
  { ateliers := []
  , sessions := [⟨10, 1, none, some ⟨2024, 3, 1⟩, none⟩]
  , presences := [⟨1, some 7, 10⟩, ⟨2, some 8, 10⟩]
  , participants := []
  , evaluations := [⟨some 10, some 7, 3, 2⟩, ⟨some 10, some 7, 4, 3⟩, ⟨some 10, some 8, 3, 2⟩] }

/-- Operational objective over session 10 with two competences and a 50
percent threshold. -/
def objC3 : Objectif := .mk "operationnel" (some 10) [⟨3⟩, ⟨4⟩] (some 50) []

/-- Store with one Nord atelier and one Sud atelier, each with one 2024
session and one presence. -/
def dbC1 : DB :=
  { ateliers := [⟨1, "A", some "Nord", false⟩, ⟨2, "B", some "Sud", false⟩]
  , sessions :=
      [⟨1, 1, none, some ⟨2024, 2, 2⟩, some "Nord"⟩, ⟨2, 2, none, some ⟨2024, 3, 3⟩, some "Sud"⟩]
  , presences := [⟨1, some 7, 1⟩, ⟨2, some 8, 2⟩]
  , participants := [⟨7, some "D", some "J"⟩, ⟨8, some "E", some "K"⟩]
  , evaluations := [] }

/-- Filter over 2024 requesting the Sud sector. -/
def fltSud : Filter := ⟨some ⟨2024, 1, 1⟩, some ⟨2024, 12, 31⟩, some "Sud"⟩

/-- Filter over 2024 requesting the Nord sector. -/
def fltNord : Filter := ⟨some ⟨2024, 1, 1⟩, some ⟨2024, 12, 31⟩, some "Nord"⟩

/-- Filter over 2025, a year with no session in dbC1. -/
def fltC7 : Filter := ⟨some ⟨2025, 1, 1⟩, some ⟨2025, 12, 31⟩, none⟩

/-- Store for the deletion guard: participant 7 has a presence in a Sud
session; participant 8 has presences only in sector-less sessions (NULL
and empty sector). -/
def dbDel : DB :=
  { ateliers := []
  , sessions := [⟨1, 1, none, none, some "Sud"⟩, ⟨2, 1, none, none, none⟩, ⟨3, 1, none, none, some ""⟩]
  , presences := [⟨1, some 7, 1⟩, ⟨2, some 8, 2⟩, ⟨3, some 8, 3⟩]
  , participants := [⟨7, none, none⟩, ⟨8, none, none⟩]
  , evaluations := [] }

/-- Membership in an insertion is membership in the tail or equality with
the inserted element. -/
theorem mem_insertLe {α : Type} (le : α → α → Bool) (x : α) (l : List α) (a : α) :
    a ∈ insertLe le x l ↔ a = x ∨ a ∈ l := by
  induction l with
  | nil => simp [insertLe]
  | cons b t ih =>
    simp only [insertLe]
    by_cases h : le x b = true
    · simp [h]
    · rw [if_neg h]
      simp only [List.mem_cons, ih]
      tauto

/-- Sorting does not change membership. -/
theorem mem_sortLe {α : Type} (le : α → α → Bool) (l : List α) (a : α) :
    a ∈ sortLe le l ↔ a ∈ l := by
  induction l with
  | nil => simp [sortLe]
  | cons b t ih => simp [sortLe, mem_insertLe, ih]

/-- The list evaluation of the roll-up is the map of the node evaluation. -/
theorem objective_success_list_eq_map (db : DB) (l : List Objectif) :
    objective_success_list db l = l.map (objective_success db) := by
  induction l with
  | nil => rfl
  | cons o rest ih => simp [objective_success_list, ih]

/-- The accumulator loop of lines 457-465 counts exactly the participants
satisfying the new and the recurring predicates. -/
theorem newRecurringLoop_eq (db : DB) (flt : Filter) (sids : List Int) :
    ∀ (pids : List Int) (acc : Nat × Nat),
      newRecurringLoop db flt sids pids acc =
        (acc.1 + pids.countP (newPred db flt sids), acc.2 + pids.countP (recPred db sids)) := by
  intro pids
  induction pids with
  | nil => intro acc; simp [newRecurringLoop]
  | cons pid rest ih =>
    intro acc
    simp only [newRecurringLoop, ih, List.countP_cons]
    cases h1 : newPred db flt sids pid <;> cases h2 : recPred db sids pid <;>
      simp [h1, h2, Prod.mk.injEq] <;> omega

/-- Claim C6: on the spreadsheet export path the values used for the
computation always lie in [5,400] and [20,5000] whatever the raw input,
and a raw value that fails integer parsing falls back to the defaults 40
and 250 before clamping; parsing is a total function, so no exception
propagates. -/
theorem C6_export_caps_clamped (raw_s raw_p : Option String) :
    (5 ≤ export_max_sessions raw_s ∧ export_max_sessions raw_s ≤ 400) ∧
    (20 ≤ export_max_participants raw_p ∧ export_max_participants raw_p ≤ 5000) ∧
    (∀ s, raw_s = some s → pyParseInt s = none → export_max_sessions raw_s = 40) ∧
    (∀ s, raw_p = some s → pyParseInt s = none → export_max_participants raw_p = 250) := by
  refine ⟨⟨?_, ?_⟩, ⟨?_, ?_⟩, ?_, ?_⟩
  · unfold export_max_sessions; omega
  · unfold export_max_sessions; omega
  · unfold export_max_participants; omega
  · unfold export_max_participants; omega
  · rintro s rfl hp
    unfold export_max_sessions parseCapRaw
    dsimp only
    split_ifs
    · omega
    · rw [hp]
      simp only [Option.getD_none]
      omega
  · rintro s rfl hp
    unfold export_max_participants parseCapRaw
    dsimp only
    split_ifs
    · omega
    · rw [hp]
      simp only [Option.getD_none]
      omega

/-- Witness for C6 at two concrete unparseable raw values. -/
theorem C6_export_caps_clamped_witness :
    (5 ≤ export_max_sessions (some "abc") ∧ export_max_sessions (some "abc") ≤ 400) ∧
    export_max_sessions (some "abc") = 40 ∧
    export_max_participants (some "12.5") = 250 :=
  ⟨(C6_export_caps_clamped (some "abc") (some "12.5")).1,
   (C6_export_caps_clamped (some "abc") (some "12.5")).2.2.1 "abc" rfl (by decide),
   (C6_export_caps_clamped (some "abc") (some "12.5")).2.2.2 "12.5" rfl (by decide)⟩

/-- Claim C9: on the dashboard path, when neither date bound is supplied
in the normalized filter, the engine receives the filter with the range
set to January 1 through December 31 of the current year. -/
theorem C9_dashboard_defaults_current_year (flt : Filter) (today : Date)
    (h1 : flt.date_from = none) (h2 : flt.date_to = none) :
    apply_default_dates flt today =
      { flt with
        date_from := some ⟨today.year, 1, 1⟩
        date_to := some ⟨today.year, 12, 31⟩ } := by
  unfold apply_default_dates
  rw [h1, h2]
  simp

/-- Witness for C9 at a concrete filter and day. -/
theorem C9_dashboard_defaults_current_year_witness :
    apply_default_dates ⟨none, none, some "X"⟩ ⟨2026, 10, 12⟩ =
      ⟨some ⟨2026, 1, 1⟩, some ⟨2026, 12, 31⟩, some "X"⟩ :=
  C9_dashboard_defaults_current_year ⟨none, none, some "X"⟩ ⟨2026, 10, 12⟩ rfl rfl

/-- Claim C2: for a caller without participants:view_all the delete
action goes through exactly when the sector set of the participant is
empty or is the singleton of the caller sector; otherwise it is refused,
the refusal is reported, and the store is unchanged. -/
theorem C2_delete_requires_single_sector (db : DB) (u : Caller) (pid : Int)
    (hcap : u.can_participants_view_all = false) :
    ((delete_participant_action db u pid).deleted = true ↔
      deleteSectors db pid = ∅ ∨ deleteSectors db pid = {userSecteur u}) ∧
    ((delete_participant_action db u pid).deleted = false →
      (delete_participant_action db u pid).refusal_reported = true ∧
      (delete_participant_action db u pid).db = db) := by
  have hres : delete_participant_action db u pid =
      if deleteSectors db pid ≠ ∅ ∧ deleteSectors db pid ≠ {userSecteur u} then
        ⟨db, false, true⟩
      else ⟨doDeleteParticipant db pid, true, false⟩ := by
    simp [delete_participant_action, hcap]
  rw [hres]
  split_ifs with h
  · obtain ⟨h1, h2⟩ := h
    exact ⟨by simp [h1, h2], fun _ => ⟨rfl, rfl⟩⟩
  · rw [not_and_or, not_not, not_not] at h
    exact ⟨by simp [h], fun hfalse => by simp at hfalse⟩

/-- Witness for C2: the refusal case at a concrete store, where the
participant has a presence in the Sud sector and the caller is assigned
to Nord. -/
theorem C2_delete_requires_single_sector_witness :
    (delete_participant_action dbDel uNord 7).deleted = false ∧
    (delete_participant_action dbDel uNord 7).refusal_reported = true ∧
    (delete_participant_action dbDel uNord 7).db = dbDel := by
  have h := C2_delete_requires_single_sector dbDel uNord 7 rfl
  have hd : (delete_participant_action dbDel uNord 7).deleted = false := by decide
  exact ⟨hd, (h.2 hd).1, (h.2 hd).2⟩

/-- Claim C10: presences whose session has a NULL or empty sector are
excluded from the sector comparison, so a participant all of whose
presences sit in sector-less sessions has an empty sector set and is
deletable by any caller. -/
theorem C10_sectorless_presences_deletable (db : DB) (u : Caller) (pid : Int)
    (hall : ∀ p ∈ db.presences, p.participant_id = some pid →
      ∀ s ∈ db.sessions, s.id = p.session_id → s.secteur = none ∨ s.secteur = some "") :
    deleteSectors db pid = ∅ ∧
    (delete_participant_action db u pid).deleted = true ∧
    (delete_participant_action db u pid).refusal_reported = false := by
  have hps : presenceSectors db pid = [] := by
    rw [List.eq_nil_iff_forall_not_mem]
    intro x hx
    unfold presenceSectors at hx
    rw [List.mem_filter] at hx
    obtain ⟨hx1, hx2⟩ := hx
    rw [List.mem_filterMap] at hx1
    obtain ⟨v, hv, hvx⟩ := hx1
    rw [List.mem_dedup, List.mem_map] at hv
    obtain ⟨r, hr, hrv⟩ := hv
    rw [List.mem_filter] at hr
    obtain ⟨hrj, hrpid⟩ := hr
    rw [List.mem_flatMap] at hrj
    obtain ⟨p, hp, hpr⟩ := hrj
    rw [List.mem_map] at hpr
    obtain ⟨s, hs, hsr⟩ := hpr
    subst hsr
    rw [List.mem_filter] at hs
    have hpid : p.participant_id = some pid := by simpa using hrpid
    have hsid : s.id = p.session_id := by simpa using hs.2
    have hsec := hall p hp hpid s hs.1 hsid
    have hrsec : s.secteur = some x := by
      have hv2 : s.secteur = v := by simpa using hrv
      rw [hv2]
      simpa using hvx
    rcases hsec with hn | he
    · rw [hn] at hrsec; exact Option.noConfusion hrsec
    · rw [he] at hrsec
      have hxe : x = "" := by injection hrsec with hh; exact hh.symm
      exact (of_decide_eq_true hx2) hxe
  have hds : deleteSectors db pid = ∅ := by
    simp [deleteSectors, hps]
  refine ⟨hds, ?_, ?_⟩
  all_goals
    unfold delete_participant_action
    split_ifs with ha hb
    · rfl
    · exact absurd hds hb.1
    · rfl

/-- Witness for C10: participant 8 of dbDel has presences only in
sessions with NULL or empty sector and is deleted without refusal. -/
theorem C10_sectorless_presences_deletable_witness :
    deleteSectors dbDel 8 = ∅ ∧
    (delete_participant_action dbDel uNord 8).deleted = true ∧
    (delete_participant_action dbDel uNord 8).refusal_reported = false :=
  C10_sectorless_presences_deletable dbDel uNord 8 (by decide)

/-- Unfolding of the roll-up on an objective that does not take the
operational branch and has no children. -/
theorem objective_success_no_children (db : DB) (typ : String) (osid : Option Int)
    (comps : List Competence) (seuil : Option ℚ)
    (hcond : ((typ == "operationnel") && intTruthy osid) = false) :
    objective_success db (.mk typ osid comps seuil []) = ⟨0, false, 0, 0⟩ := by
  unfold objective_success
  rw [if_neg (by simp [hcond])]

/-- Unfolding of the roll-up on an objective that does not take the
operational branch and has at least one child. -/
theorem objective_success_composite_cons (db : DB) (typ : String) (osid : Option Int)
    (comps : List Competence) (seuil : Option ℚ) (e0 : Objectif) (rest : List Objectif)
    (hcond : ((typ == "operationnel") && intTruthy osid) = false) :
    objective_success db (.mk typ osid comps seuil (e0 :: rest)) =
      { ratio := (((e0 :: rest).map (objective_success db)).countP (fun r => r.validated) : ℚ) /
          (((e0 :: rest).map (objective_success db)).length : ℚ) * 100
        validated := decide (((((e0 :: rest).map (objective_success db)).countP
            (fun r => r.validated) : ℚ) /
          (((e0 :: rest).map (objective_success db)).length : ℚ) * 100) ≥ seuil.getD 0)
        total := ((e0 :: rest).map (objective_success db)).length
        success := ((e0 :: rest).map (objective_success db)).countP (fun r => r.validated) } := by
  unfold objective_success
  rw [if_neg (by simp [hcond])]
  simp only [objective_success_list_eq_map]

/-- Claim C4 (amended): for a composite objective (no session link),
the roll-up over a non-empty child list returns total = number of
children, success = number of validated children, ratio =
success/total*100 and validated = (ratio at or above threshold); for an
objective with zero children it returns the fixed record with ratio 0,
all counters 0 and validated false regardless of the threshold. -/
theorem C4_composite_children_rollup (db : DB) (obj : Objectif)
    (hsid : obj.session_id = none) :
    (obj.enfants = [] → objective_success db obj = ⟨0, false, 0, 0⟩) ∧
    (obj.enfants ≠ [] →
      (objective_success db obj).total = obj.enfants.length ∧
      (objective_success db obj).success =
        (obj.enfants.map (objective_success db)).countP (fun r => r.validated) ∧
      (objective_success db obj).ratio =
        ((objective_success db obj).success : ℚ) / ((objective_success db obj).total : ℚ) * 100 ∧
      (objective_success db obj).validated =
        decide ((objective_success db obj).ratio ≥ (obj.seuil_validation.getD 0))) := by
  obtain ⟨typ, osid, comps, seuil, enfants⟩ := obj
  have hosid : osid = none := hsid
  subst hosid
  have hcond : ((typ == "operationnel") && intTruthy none) = false := by
    simp [intTruthy]
  constructor
  · intro he
    have he2 : enfants = [] := he
    subst he2
    exact objective_success_no_children db typ none comps seuil hcond
  · intro hne
    have hne2 : enfants ≠ [] := hne
    rcases enfants with _ | ⟨e0, rest⟩
    · exact absurd rfl hne2
    · rw [objective_success_composite_cons db typ none comps seuil e0 rest hcond]
      exact ⟨by simp [Objectif.enfants], rfl, rfl, rfl⟩

/-- Counterexample to claim C4 as stated: on a composite objective with
zero children and threshold 0 the code returns ratio 0 but
validated = false, while the claim predicts validated = (0 at or above
0) = true. -/
theorem C4_counterexample :
    (objective_success dbEmpty objC4).ratio = 0 ∧
    (objective_success dbEmpty objC4).validated = false ∧
    decide ((objective_success dbEmpty objC4).ratio ≥ ((objC4.seuil_validation).getD 0)) = true := by
  exact ⟨by decide, by decide, by decide⟩

/-- Witness for C4 at a concrete composite objective with one child. -/
theorem C4_composite_children_rollup_witness :
    ((objC4w.enfants = [] → objective_success dbEmpty objC4w = ⟨0, false, 0, 0⟩) ∧
     (objC4w.enfants ≠ [] →
       (objective_success dbEmpty objC4w).total = objC4w.enfants.length ∧
       (objective_success dbEmpty objC4w).success =
         (objC4w.enfants.map (objective_success dbEmpty)).countP (fun r => r.validated) ∧
       (objective_success dbEmpty objC4w).ratio =
         ((objective_success dbEmpty objC4w).success : ℚ) /
           ((objective_success dbEmpty objC4w).total : ℚ) * 100 ∧
       (objective_success dbEmpty objC4w).validated =
         decide ((objective_success dbEmpty objC4w).ratio ≥ ((objC4w.seuil_validation).getD 0)))) :=
  C4_composite_children_rollup dbEmpty objC4w rfl

/-- Synthese rows do not depend on the requested sector field except
through the effective sector. -/
theorem summaryRowFor_secteur_invariant (db : DB) (df dt : Option Date)
    (s1 s2 : Option String) (a : Atelier) :
    summaryRowFor db ⟨df, dt, s1⟩ a = summaryRowFor db ⟨df, dt, s2⟩ a := by
  unfold summaryRowFor newRecurring
  simp only [newRecurringLoop_eq]
  have hsess : sessionsInPeriod db ⟨df, dt, s1⟩ a.id = sessionsInPeriod db ⟨df, dt, s2⟩ a.id := rfl
  have hnew : newPred db ⟨df, dt, s1⟩ = newPred db ⟨df, dt, s2⟩ := rfl
  rw [hsess, hnew]

/-- Claim C1: a caller without scope:all_secteurs whose stripped assigned
sector is non-empty gets that sector as the effective sector whatever the
requested filter sector, and the produced export tables are identical for
any two requested sectors (same date bounds). -/
theorem C1_sector_override (db : DB) (u : Caller) (flt1 flt2 : Filter)
    (hcan : u.can_all_secteurs = false)
    (hassigned : pyStrip (u.secteur_assigne.getD "") ≠ "")
    (hdf : flt1.date_from = flt2.date_from) (hdt : flt1.date_to = flt2.date_to) :
    effSecteurExport flt1 u = some (pyStrip (u.secteur_assigne.getD "")) ∧
    buildSummary db flt1 u = buildSummary db flt2 u ∧
    ∀ atelier_id, matrixRows db flt1 atelier_id = matrixRows db flt2 atelier_id := by
  obtain ⟨df1, dt1, s1⟩ := flt1
  obtain ⟨df2, dt2, s2⟩ := flt2
  obtain rfl : df1 = df2 := hdf
  obtain rfl : dt1 = dt2 := hdt
  refine ⟨?_, ?_, ?_⟩
  · simp [effSecteurExport, hcan, hassigned]
  · have he : effSecteurExport ⟨df1, dt1, s1⟩ u = effSecteurExport ⟨df1, dt1, s2⟩ u := by
      simp [effSecteurExport, hcan, hassigned]
    unfold buildSummary
    rw [he]
    apply List.map_congr_left
    intro a ha
    exact summaryRowFor_secteur_invariant db df1 dt1 s1 s2 a
  · intro atelier_id
    rfl

/-- Witness for C1: the caller assigned to Nord requesting Sud gets the
Nord-scoped tables. -/
theorem C1_sector_override_witness :
    effSecteurExport fltSud uNord = some "Nord" ∧
    buildSummary dbC1 fltSud uNord = buildSummary dbC1 fltNord uNord ∧
    matrixRows dbC1 fltSud 1 = matrixRows dbC1 fltNord 1 := by
  have h := C1_sector_override dbC1 uNord fltSud fltNord rfl (by decide) rfl rfl
  exact ⟨by rw [h.1]; decide, h.2.1, h.2.2 1⟩

/-- Claim C7: a non-deleted atelier inside the effective sector scope with
no session in the filtered period still yields the all-zero row in the
Synthese sheet. -/
theorem C7_zero_session_atelier_row (db : DB) (flt : Filter) (u : Caller) (atl : Atelier)
    (hmem : atl ∈ db.ateliers) (hdel : atl.is_deleted = false)
    (hsec : optStrTruthy (effSecteurExport flt u) = true →
      (atl.secteur == effSecteurExport flt u) = true)
    (hempty : sessionsInPeriod db flt atl.id = []) :
    (⟨atl.secteur, atl.nom, 0, 0, 0, 0, 0⟩ : SummaryRow) ∈ buildSummary db flt u := by
  have hin : atl ∈ ateliersInScope db (effSecteurExport flt u) := by
    unfold ateliersInScope
    dsimp only
    rw [mem_sortLe]
    split_ifs with h
    · rw [List.mem_filter, List.mem_filter]
      exact ⟨⟨hmem, by simp [hdel]⟩, hsec h⟩
    · rw [List.mem_filter]
      exact ⟨hmem, by simp [hdel]⟩
  unfold buildSummary
  rw [List.mem_map]
  refine ⟨atl, hin, ?_⟩
  unfold summaryRowFor
  dsimp only
  rw [if_pos hempty]

/-- Witness for C7: atelier B of dbC1 has no 2025 session and appears
with the all-zero row. -/
theorem C7_zero_session_atelier_row_witness :
    (⟨some "Sud", "B", 0, 0, 0, 0, 0⟩ : SummaryRow) ∈ buildSummary dbC1 fltC7 uAll :=
  C7_zero_session_atelier_row dbC1 fltC7 uAll ⟨2, "B", some "Sud", false⟩
    (by decide) rfl (by decide) (by decide)

/-- Claim C5 (amended): in the Synthese row of an atelier with at least
one in-period session and at least one presence, recurrents counts the
participants with at least two presences among the in-period sessions of
the atelier, and nouveaux counts the participants whose earliest
effective date among their in-period presences exists and falls inside
the range while both bounds are set; the two predicates are independent
and a participant can be counted in both. -/
theorem C5_new_recurring_period_counts (db : DB) (flt : Filter) (atl : Atelier)
    (hs : sessionsInPeriod db flt atl.id ≠ [])
    (hr : presRows db ((sessionsInPeriod db flt atl.id).map (fun s => s.id)) ≠ []) :
    summaryRowFor db flt atl =
      ⟨atl.secteur, atl.nom, (sessionsInPeriod db flt atl.id).length,
        (presRows db ((sessionsInPeriod db flt atl.id).map (fun s => s.id))).length,
        (pidSet (presRows db ((sessionsInPeriod db flt atl.id).map (fun s => s.id)))).length,
        (pidSet (presRows db ((sessionsInPeriod db flt atl.id).map (fun s => s.id)))).countP
          (newPred db flt ((sessionsInPeriod db flt atl.id).map (fun s => s.id))),
        (pidSet (presRows db ((sessionsInPeriod db flt atl.id).map (fun s => s.id)))).countP
          (recPred db ((sessionsInPeriod db flt atl.id).map (fun s => s.id)))⟩ := by
  unfold summaryRowFor
  dsimp only
  rw [if_neg hs, if_neg hr]
  unfold newRecurring
  rw [newRecurringLoop_eq]
  simp

/-- Witness for C5 at the concrete store dbC5 over the 2024 filter. -/
theorem C5_new_recurring_period_counts_witness :
    summaryRowFor dbC5 fltC5 ⟨1, "A", some "N", false⟩ =
      ⟨some "N", "A", 1, 1, 1, 1, 0⟩ := by
  rw [C5_new_recurring_period_counts dbC5 fltC5 ⟨1, "A", some "N", false⟩ (by decide) (by decide)]
  decide

/-- Counterexample to claim C5 as stated: in dbC5 participant 7 has two
all-history presences for atelier 1 (so the claim makes them recurring)
and a first-ever date of June 2023, outside the 2024 filter (so the
claim makes them not new); the code instead reports recurrents = 0 and
nouveaux = 1, because it restricts both the count and the minimum date
to the in-period sessions. -/
theorem C5_counterexample :
    spec_recurring dbC5 1 7 = true ∧
    spec_new dbC5 fltC5 1 7 = false ∧
    buildSummary dbC5 fltC5 uAll = [⟨some "N", "A", 1, 1, 1, 1, 0⟩] := by
  exact ⟨by decide, by decide, by decide⟩

/-- Zipping a list with its own map pairs every element with its image. -/
theorem zip_map_self {α β : Type} (g : α → β) (l : List α) :
    l.zip (l.map g) = l.map (fun a => (a, g a)) := by
  induction l with
  | nil => rfl
  | cons a t ih => simp [ih]

/-- Membership in the present set is a non-null presence pair. -/
theorem mem_presentSet (rows : List (Option Int × Int)) (pid sid : Int) :
    (pid, sid) ∈ presentSet rows ↔ (some pid, sid) ∈ rows := by
  unfold presentSet
  rw [List.mem_filterMap]
  constructor
  · rintro ⟨⟨op, s⟩, hr, hmatch⟩
    rcases op with _ | q
    · simp at hmatch
    · simp only [Option.some.injEq, Prod.mk.injEq] at hmatch
      obtain ⟨h1, h2⟩ := hmatch
      rw [← h1, ← h2]
      exact hr
  · intro hr
    exact ⟨(some pid, sid), hr, rfl⟩

/-- Membership in the presence pair list names a presence of the store
attached to one of the given sessions. -/
theorem mem_presRows (db : DB) (sids : List Int) (op : Option Int) (sid : Int) :
    (op, sid) ∈ presRows db sids ↔
      ∃ p ∈ db.presences, sids.contains p.session_id = true ∧
        p.participant_id = op ∧ p.session_id = sid := by
  unfold presRows
  rw [List.mem_map]
  constructor
  · rintro ⟨p, hp, heq⟩
    rw [List.mem_filter] at hp
    rw [Prod.mk.injEq] at heq
    exact ⟨p, hp.1, hp.2, heq.1, heq.2⟩
  · rintro ⟨p, hp, hc, h1, h2⟩
    exact ⟨p, List.mem_filter.mpr ⟨hp, hc⟩, by rw [h1, h2]⟩

/-- Every matrix row carries a participant id of the bounded pid set. -/
theorem matrixRows_fst_mem (db : DB) (flt : Filter) (aid : Int) (r : Int × List String)
    (hr : r ∈ matrixRows db flt aid) : r.1 ∈ matrixPids db flt aid := by
  unfold matrixRows at hr
  dsimp only at hr
  rw [List.mem_map] at hr
  obtain ⟨p, hp, hpr⟩ := hr
  rw [mem_sortLe, List.mem_filter] at hp
  have hc := hp.2
  rw [← hpr]
  exact List.elem_iff.mp hc

/-- Claim C8: every matrix cell marked present corresponds to a presence
row linking that participant to that session in the unbounded store, and
a (participant, session) pair whose session is outside the in-period
session columns or whose participant has no matrix row gets no cell at
all — nothing is fabricated. -/
theorem C8_matrix_cells (db : DB) (flt : Filter) (aid pid sid : Int) :
    (cellOf db flt aid pid sid = some "1" →
      ∃ p ∈ db.presences, p.participant_id = some pid ∧ p.session_id = sid) ∧
    ((sid ∉ (sessionsInPeriod db flt aid).map (fun s => s.id) ∨
       pid ∉ matrixPids db flt aid) →
      cellOf db flt aid pid sid = none) := by
  constructor
  · intro hcell
    unfold cellOf at hcell
    rcases hf : (matrixRows db flt aid).find? (fun r => r.1 == pid) with _ | r
    · rw [hf] at hcell; simp at hcell
    · rw [hf] at hcell
      dsimp only at hcell
      rcases hz : ((sessionsInPeriod db flt aid).zip r.2).find? (fun z => z.1.id == sid)
        with _ | z
      · rw [hz] at hcell; simp at hcell
      · rw [hz] at hcell
        have hz2 : z.2 = "1" := by simpa using hcell
        have hrmem := List.mem_of_find?_eq_some hf
        have hrpid := List.find?_some hf
        have hzmem := List.mem_of_find?_eq_some hz
        have hzsid := List.find?_some hz
        unfold matrixRows at hrmem
        dsimp only at hrmem
        rw [List.mem_map] at hrmem
        obtain ⟨p, hp, hpr⟩ := hrmem
        subst hpr
        rw [zip_map_self] at hzmem
        rw [List.mem_map] at hzmem
        obtain ⟨s, hsmem, hzs⟩ := hzmem
        subst hzs
        have hpid : p.id = pid := by simpa using hrpid
        have hsid : s.id = sid := by simpa using hzsid
        have hcont : ((presentSet (presRows db
            ((sessionsInPeriod db flt aid).map (fun q => q.id)))).contains (p.id, s.id)) = true := by
          by_contra hc
          rw [Bool.not_eq_true] at hc
          have hz3 : (if ((presentSet (presRows db
              ((sessionsInPeriod db flt aid).map (fun q => q.id)))).contains (p.id, s.id)) = true
              then "1" else ("" : String)) = "1" := hz2
          rw [hc] at hz3
          simp at hz3
        have hpmem := List.elem_iff.mp hcont
        rw [mem_presentSet, mem_presRows] at hpmem
        obtain ⟨pr, hprmem, hprc, hpr1, hpr2⟩ := hpmem
        exact ⟨pr, hprmem, by rw [hpr1, hpid], by rw [hpr2, hsid]⟩
  · intro h
    unfold cellOf
    rcases h with hsid | hpid
    · rcases hf : (matrixRows db flt aid).find? (fun r => r.1 == pid) with _ | r
      · rw [hf]
      · rw [hf]
        dsimp only
        have hzn : ((sessionsInPeriod db flt aid).zip r.2).find? (fun z => z.1.id == sid)
            = none := by
          rw [List.find?_eq_none]
          intro z hz hzz
          have hzid : z.1.id = sid := by simpa using hzz
          exact hsid (List.mem_map.mpr ⟨z.1, (List.of_mem_zip hz).1, hzid⟩)
        rw [hzn]
    · have hfn : (matrixRows db flt aid).find? (fun r => r.1 == pid) = none := by
        rw [List.find?_eq_none]
        intro r hr hpr
        have h1 : r.1 = pid := by simpa using hpr
        exact hpid (h1 ▸ matrixRows_fst_mem db flt aid r hr)
      rw [hfn]

/-- Witness for C8: in dbC5 over the 2024 filter, the cell of participant
7 at the 2024 session is backed by a presence; the 2023 session column
and an absent participant yield no cell. -/
theorem C8_matrix_cells_witness :
    (∃ p ∈ dbC5.presences, p.participant_id = some (7 : Int) ∧ p.session_id = (2 : Int)) ∧
    cellOf dbC5 fltC5 1 7 1 = none ∧
    cellOf dbC5 fltC5 1 9 2 = none :=
  ⟨(C8_matrix_cells dbC5 fltC5 1 7 2).1 (by decide),
   (C8_matrix_cells dbC5 fltC5 1 7 1).2 (by decide),
   (C8_matrix_cells dbC5 fltC5 1 9 2).2 (by decide)⟩

/-- SQL equality on nullable ints holds exactly on equal non-null values. -/
theorem sqlEqInt_true_iff (a b : Option Int) :
    sqlEqInt a b = true ↔ ∃ x, a = some x ∧ b = some x := by
  cases a with
  | none => simp [sqlEqInt]
  | some x =>
    cases b with
    | none => simp [sqlEqInt]
    | some y =>
      constructor
      · intro h
        have hxy : x = y := by simpa [sqlEqInt] using h
        exact ⟨y, by rw [hxy], rfl⟩
      · rintro ⟨z, hz1, hz2⟩
        have hx : x = z := by injection hz1
        have hy : y = z := by injection hz2
        simp [sqlEqInt, hx, hy]

/-- SQL equality against a NULL right operand is always false. -/
theorem sqlEqInt_none_right (a : Option Int) : sqlEqInt a none = false := by
  cases a <;> rfl

/-- SQL equality on two non-null values is value equality. -/
theorem sqlEqInt_some_some (x y : Int) : sqlEqInt (some x) (some y) = (x == y) := rfl

/-- Key counting step of the operational roll-up: the distinct count of
validated evaluation rows matching one presence reaches the number of
competences exactly when every competence of the objective has a
validated evaluation, assuming one evaluation row per (session,
participant, competence) and distinct competence ids. -/
theorem evalCount_eq_all_validated (db : DB) (sid : Int) (pid : Option Int)
    (comps : List Competence)
    (hkeys : (db.evaluations.map
        (fun e => (e.session_id, e.participant_id, e.competence_id))).Nodup)
    (hcids : (comps.map (fun c => c.id)).Nodup)
    (hne : comps ≠ []) :
    (evalCount db sid pid (comps.map (fun c => c.id)) ==
        (comps.map (fun c => c.id)).length) =
      comps.all (fun c => hasValidated db sid pid c.id) := by
  have hnodupEvals : db.evaluations.Nodup := List.Nodup.of_map _ hkeys
  have hmnodup : (evalMatches db sid pid (comps.map (fun c => c.id))).Nodup := by
    unfold evalMatches
    exact (List.filter_sublist _).nodup hnodupEvals
  have hdedup : evalCount db sid pid (comps.map (fun c => c.id)) =
      (evalMatches db sid pid (comps.map (fun c => c.id))).length := by
    unfold evalCount
    rw [List.dedup_eq_self.mpr hmnodup]
  obtain ⟨c0, hc0⟩ : ∃ c, c ∈ comps := by
    rcases comps with _ | ⟨c, t⟩
    · exact absurd rfl hne
    · exact ⟨c, List.mem_cons_self c t⟩
  rcases pid with _ | q
  · have hm : evalMatches db sid none (comps.map (fun c => c.id)) = [] := by
      unfold evalMatches
      rw [List.filter_eq_nil_iff]
      intro e he
      simp [sqlEqInt_none_right]
    have hval : hasValidated db sid none c0.id = false := by
      unfold hasValidated
      rw [← Bool.not_eq_true, List.any_eq_true]
      rintro ⟨e, he, hpred⟩
      simp [sqlEqInt_none_right] at hpred
    rw [hdedup, hm]
    rw [List.all_eq_false.mpr ⟨c0, hc0, by simp [hval]⟩]
    have hlen : (comps.map (fun c => c.id)).length ≠ 0 := by
      simp only [List.length_map]
      intro hzz
      exact hne (List.length_eq_zero.mp hzz)
    cases hcl : (comps.map (fun c => c.id)).length with
    | zero => exact absurd hcl hlen
    | succ n => rfl
  · have hsub : (evalMatches db sid (some q) (comps.map (fun c => c.id))).Sublist
        db.evaluations := List.filter_sublist _
    have hfix : ∀ e ∈ evalMatches db sid (some q) (comps.map (fun c => c.id)),
        e.session_id = some sid ∧ e.participant_id = some q ∧
        (comps.map (fun c => c.id)).contains e.competence_id = true ∧ (2 : Int) ≤ e.etat := by
      intro e he
      unfold evalMatches at he
      rw [List.mem_filter] at he
      have hp := he.2
      simp only [Bool.and_eq_true] at hp
      obtain ⟨⟨⟨h1, h2⟩, h3⟩, h4⟩ := hp
      obtain ⟨x, hx1, hx2⟩ := (sqlEqInt_true_iff _ _).mp h1
      obtain ⟨y, hy1, hy2⟩ := (sqlEqInt_true_iff _ _).mp h2
      have hxx : sid = x := by injection hx2
      have hyy : q = y := by injection hy2
      exact ⟨by rw [hx1, ← hxx], by rw [hy1, ← hyy], h3, of_decide_eq_true h4⟩
    have hmkeys : ((evalMatches db sid (some q) (comps.map (fun c => c.id))).map
        (fun e => (e.session_id, e.participant_id, e.competence_id))).Nodup :=
      (hsub.map _).nodup hkeys
    have hmap_eq : (evalMatches db sid (some q) (comps.map (fun c => c.id))).map
        (fun e => (e.session_id, e.participant_id, e.competence_id)) =
        ((evalMatches db sid (some q) (comps.map (fun c => c.id))).map
          (fun e => e.competence_id)).map
            (fun cid => ((some sid : Option Int), (some q : Option Int), cid)) := by
      rw [List.map_map]
      apply List.map_congr_left
      intro e he
      obtain ⟨h1, h2, _, _⟩ := hfix e he
      simp [h1, h2, Function.comp]
    have hcnodup : ((evalMatches db sid (some q) (comps.map (fun c => c.id))).map
        (fun e => e.competence_id)).Nodup := by
      apply List.Nodup.of_map (fun cid => ((some sid : Option Int), (some q : Option Int), cid))
      rw [← hmap_eq]
      exact hmkeys
    have hmm : ∀ cid : Int, cid ∈ (evalMatches db sid (some q) (comps.map (fun c => c.id))).map
        (fun e => e.competence_id) ↔
        (cid ∈ comps.map (fun c => c.id) ∧ hasValidated db sid (some q) cid = true) := by
      intro cid
      rw [List.mem_map]
      constructor
      · rintro ⟨e, he, rfl⟩
        obtain ⟨h1, h2, h3, h4⟩ := hfix e he
        refine ⟨List.elem_iff.mp h3, ?_⟩
        unfold hasValidated
        rw [List.any_eq_true]
        refine ⟨e, hsub.subset he, ?_⟩
        simp [h1, h2, h4, sqlEqInt_some_some]
      · rintro ⟨hcid, hval⟩
        unfold hasValidated at hval
        rw [List.any_eq_true] at hval
        obtain ⟨e, he, hpred⟩ := hval
        simp only [Bool.and_eq_true, beq_iff_eq] at hpred
        obtain ⟨⟨⟨h1, h2⟩, h3⟩, h4⟩ := hpred
        refine ⟨e, ?_, h3⟩
        unfold evalMatches
        rw [List.mem_filter]
        refine ⟨he, ?_⟩
        have hcont : (comps.map (fun c => c.id)).contains e.competence_id = true := by
          rw [h3]
          exact List.elem_iff.mpr hcid
        simp only [h1, h2, h4, hcont, Bool.and_self, Bool.true_and, Bool.and_true]
    have hVnodup : ((comps.map (fun c => c.id)).filter
        (fun cid => hasValidated db sid (some q) cid)).Nodup := hcids.filter _
    have hfin : ((evalMatches db sid (some q) (comps.map (fun c => c.id))).map
        (fun e => e.competence_id)).toFinset =
        ((comps.map (fun c => c.id)).filter
          (fun cid => hasValidated db sid (some q) cid)).toFinset := by
      apply Finset.ext
      intro cid
      rw [List.mem_toFinset, List.mem_toFinset, List.mem_filter, hmm cid]
    have hlen2 : ((evalMatches db sid (some q) (comps.map (fun c => c.id))).map
        (fun e => e.competence_id)).length =
        ((comps.map (fun c => c.id)).filter
          (fun cid => hasValidated db sid (some q) cid)).length := by
      rw [← List.toFinset_card_of_nodup hcnodup, ← List.toFinset_card_of_nodup hVnodup, hfin]
    have hml : (evalMatches db sid (some q) (comps.map (fun c => c.id))).length =
        ((comps.map (fun c => c.id)).filter
          (fun cid => hasValidated db sid (some q) cid)).length := by
      rw [← hlen2, List.length_map]
    rw [hdedup, hml, ← List.countP_eq_length_filter]
    cases hall : comps.all (fun c => hasValidated db sid (some q) c.id) with
    | false =>
      rw [List.all_eq_false] at hall
      obtain ⟨c, hc, hcval⟩ := hall
      have hne2 : List.countP (fun cid => hasValidated db sid (some q) cid)
          (comps.map (fun c => c.id)) ≠ (comps.map (fun c => c.id)).length := by
        intro hEq
        exact hcval (List.countP_eq_length.mp hEq c.id (List.mem_map.mpr ⟨c, hc, rfl⟩))
      rw [beq_eq_false_iff_ne.mpr hne2]
    | true =>
      rw [List.all_eq_true] at hall
      have hEq : List.countP (fun cid => hasValidated db sid (some q) cid)
          (comps.map (fun c => c.id)) = (comps.map (fun c => c.id)).length :=
        List.countP_eq_length.mpr (by
          intro cid hcid
          rw [List.mem_map] at hcid
          obtain ⟨c, hc, rfl⟩ := hcid
          exact hall c hc)
      rw [hEq]
      simp

/-- Unfolding of the roll-up on the operational branch. -/
theorem objective_success_operational (db : DB) (typ : String) (osid : Option Int)
    (comps : List Competence) (seuil : Option ℚ) (enfants : List Objectif)
    (hcond : ((typ == "operationnel") && intTruthy osid) = true) :
    objective_success db (.mk typ osid comps seuil enfants) =
      { ratio := (participants_success_rate db (osid.getD 0) comps).ratio
        validated := decide ((participants_success_rate db (osid.getD 0) comps).ratio ≥
          seuil.getD 0)
        total := (participants_success_rate db (osid.getD 0) comps).total
        success := (participants_success_rate db (osid.getD 0) comps).success } := by
  unfold objective_success
  rw [if_pos hcond]

/-- Characterization of _participants_success_rate on a non-empty
competency set under the uniqueness assumptions of the data model. -/
theorem participants_success_rate_spec (db : DB) (sid : Int) (comps : List Competence)
    (hne : comps ≠ [])
    (hkeys : (db.evaluations.map
        (fun e => (e.session_id, e.participant_id, e.competence_id))).Nodup)
    (hcids : (comps.map (fun c => c.id)).Nodup) :
    (participants_success_rate db sid comps).total =
      (db.presences.filter (fun p => p.session_id == sid)).length ∧
    (participants_success_rate db sid comps).success =
      (db.presences.filter (fun p => p.session_id == sid)).countP
        (fun pr => comps.all (fun c => hasValidated db sid pr.participant_id c.id)) ∧
    (participants_success_rate db sid comps).ratio =
      ((participants_success_rate db sid comps).success : ℚ) /
        ((participants_success_rate db sid comps).total : ℚ) * 100 := by
  unfold participants_success_rate
  rw [if_neg hne]
  dsimp only
  by_cases hz : (db.presences.filter (fun p => p.session_id == sid)).length = 0
  · rw [if_pos hz]
    have hnil : db.presences.filter (fun p => p.session_id == sid) = [] :=
      List.length_eq_zero.mp hz
    refine ⟨hz.symm, by rw [hnil]; rfl, by simp⟩
  · rw [if_neg hz]
    dsimp only
    refine ⟨rfl, ?_, rfl⟩
    apply List.countP_congr
    intro pr hpr
    rw [evalCount_eq_all_validated db sid pr.participant_id comps hkeys hcids hne]

/-- Claim C3: on an operational objective (type operationnel, truthy
session link, non-empty competency set), the roll-up returns total = the
presence count of the session, success = the count of presences whose
participant has a validated (etat at least 2) evaluation for every
competence of the objective, ratio = success/total*100 with ratio 0 at
total 0, and validated = (ratio at or above the threshold); presences of
the session are assumed unique per participant and evaluations unique
per (session, participant, competence), as the data model states. -/
theorem C3_operational_objective (db : DB) (obj : Objectif) (sid : Int)
    (htyp : obj.typ = "operationnel")
    (hsid : obj.session_id = some sid) (hsid0 : sid ≠ 0)
    (hcomps : obj.competences ≠ [])
    (hcids : (obj.competences.map (fun c => c.id)).Nodup)
    (hkeys : (db.evaluations.map
        (fun e => (e.session_id, e.participant_id, e.competence_id))).Nodup)
    (hpres : ((db.presences.filter (fun p => p.session_id == sid)).map
        (fun p => p.participant_id)).Nodup) :
    (objective_success db obj).total =
      (db.presences.filter (fun p => p.session_id == sid)).length ∧
    (objective_success db obj).success =
      (db.presences.filter (fun p => p.session_id == sid)).countP
        (fun pr => obj.competences.all (fun c => hasValidated db sid pr.participant_id c.id)) ∧
    (objective_success db obj).ratio =
      ((objective_success db obj).success : ℚ) / ((objective_success db obj).total : ℚ) * 100 ∧
    ((objective_success db obj).total = 0 → (objective_success db obj).ratio = 0) ∧
    (objective_success db obj).validated =
      decide ((objective_success db obj).ratio ≥ (obj.seuil_validation.getD 0)) := by
  obtain ⟨typ, osid, comps, seuil, enfants⟩ := obj
  have htyp2 : typ = "operationnel" := htyp
  have hsid2 : osid = some sid := hsid
  subst htyp2
  subst hsid2
  have hcomps2 : comps ≠ [] := hcomps
  have hcids2 : (comps.map (fun c => c.id)).Nodup := hcids
  have hcond : (("operationnel" == "operationnel") && intTruthy (some sid)) = true := by
    simp [intTruthy, hsid0]
  rw [objective_success_operational db "operationnel" (some sid) comps seuil enfants hcond]
  have hgd : (some sid).getD 0 = sid := rfl
  rw [hgd]
  dsimp only [Objectif.competences, Objectif.seuil_validation]
  obtain ⟨ht, hs, hr⟩ := participants_success_rate_spec db sid comps hcomps2 hkeys hcids2
  refine ⟨ht, hs, hr, ?_, rfl⟩
  intro h0
  rw [hr, h0]
  have hprs : db.presences.filter (fun p => p.session_id == sid) = [] := by
    apply List.length_eq_zero.mp
    rw [← ht]
    exact h0
  rw [hs, hprs]
  simp

/-- Witness for C3 at the concrete store dbC3: session 10 holds two
presences, participant 7 validates both competences, participant 8 only
one. -/
theorem C3_operational_objective_witness :
    (objective_success dbC3 objC3).total =
      (dbC3.presences.filter (fun p => p.session_id == (10 : Int))).length ∧
    (objective_success dbC3 objC3).success =
      (dbC3.presences.filter (fun p => p.session_id == (10 : Int))).countP
        (fun pr => objC3.competences.all (fun c => hasValidated dbC3 10 pr.participant_id c.id)) ∧
    (objective_success dbC3 objC3).ratio =
      ((objective_success dbC3 objC3).success : ℚ) /
        ((objective_success dbC3 objC3).total : ℚ) * 100 ∧
    ((objective_success dbC3 objC3).total = 0 → (objective_success dbC3 objC3).ratio = 0) ∧
    (objective_success dbC3 objC3).validated =
      decide ((objective_success dbC3 objC3).ratio ≥ ((objC3.seuil_validation).getD 0)) :=
  C3_operational_objective dbC3 objC3 10 rfl rfl (by decide) (by decide) (by decide)
    (by decide) (by decide)

end ERP
